import Mathlib

/-!
Verification of the dataset-loading and batching layer in
`tacotron2/data_utils.py` (classes `PPG_MelLoader`, `TextMelLoader`,
`TextMelCollate`).

The Python source is shallowly embedded below.  Conventions:
* Floating-point payloads (mel magnitudes, PPG scores, embedding entries) are
  modelled by `Int`: no verified property inspects float arithmetic, only
  shapes, lengths, orderings and 0/1 flag values.
* 2-D tensors / numpy arrays are `List (List Int)` (rows = dim 0).
* Fallible Python code returns `Except PyError _`.
* External collaborators (the file system, `librosa`/`scipy` audio loading,
  the `resemblyzer` speaker encoder, the mel transform of `layers.TacotronSTFT`)
  are injected through a `World` record of functions, so the loader logic of
  `data_utils.py` itself is the only code being modelled.
-/

/-- Python exceptions that the modelled code can raise. -/
inductive PyError where
  | attributeError (name : String)
  | valueError (msg : String)
  | assertionError (msg : String)
  | indexError (msg : String)
  deriving DecidableEq, Repr

/-- Python runtime types, as far as the modelled code inspects them
(`type(x)` is only ever compared against something). -/
inductive PyType where
  | ndarray
  | str
  | other (name : String)
  deriving DecidableEq, Repr

/-- The operands that `data_utils.py` ever passes to Python `==` where the
runtime type of the operands matters: type objects and strings. -/
inductive PyObj where
  | typeObj (t : PyType)
  | strObj (s : String)
  deriving DecidableEq, Repr

/-- Python `==` on `PyObj`: a type object and a `str` are never equal
(no cross-type `__eq__` exists for them), equal kinds compare structurally. -/
def pyEq : PyObj → PyObj → Bool
  | PyObj.typeObj a, PyObj.typeObj b => a == b
  | PyObj.strObj a, PyObj.strObj b => a == b
  | _, _ => false

/-- A Python value whose runtime type the code may test: the speaker
embedding.  `data` is its numeric payload when it has one. -/
structure PyVal where
  ty : PyType
  data : List Int
  deriving DecidableEq, Repr

/-- Python `str.format` with auto-numbered `{}` placeholders.  A template with
`k` placeholders is given as its `k+1` literal segments.  When the template
has more placeholders than supplied arguments, `format` raises `IndexError`
(extra arguments are allowed). -/
def strFormat : List String → List String → Except PyError String
  | [s], _ => Except.ok s
  | s :: rest, a :: args =>
      (strFormat rest args).map (fun t => s ++ a ++ t)
  | _ :: _, [] =>
      Except.error (PyError.indexError
        "Replacement index out of range for positional args tuple")
  | [], _ => Except.ok ""

/-- External collaborators, injected as functions (cf. spec §9: the audio
loading, the spectrogram transform and the speaker-embedding model are
capability interfaces, not reimplemented here). -/
structure World where
  /-- `load_wav_to_torch filename = (samples, sampling_rate)`. -/
  loadWav : String → List Int × Nat
  /-- `np.load` of a 2-D array file. -/
  loadNpy : String → List (List Int)
  /-- `stft.mel_spectrogram` applied to the amplitude-normalised signal after
  `unsqueeze(0)`, with the final `squeeze(0)` folded in. -/
  melTransform : String → List ℚ → List (List Int)
  /-- `VoiceEncoder().embed_utterance(preprocess_wav(Path(audiopath)))`:
  the whole external speaker-embedding pipeline. -/
  embedUtterance : String → PyVal

/-- The hyper-parameter object, restricted to the fields `data_utils.py`
reads. -/
structure Hparams where
  text_cleaners : List String
  max_wav_value : ℚ
  sampling_rate : Nat
  load_mel_from_disk : Bool
  filter_length : Nat
  hop_length : Nat
  win_length : Nat
  n_mel_channels : Nat
  mel_fmin : Int
  mel_fmax : Int
  seed : Nat

/-- `layers.TacotronSTFT` as the loaders see it: a record of the constructor
arguments (the `layers` module is not among the provided sources; the loaders
only read `sampling_rate` and `n_mel_channels` back from it, and call
`mel_spectrogram`, which is injected via `World.melTransform`). -/
structure TacotronSTFT where
  filter_length : Nat
  hop_length : Nat
  win_length : Nat
  n_mel_channels : Nat
  sampling_rate : Nat
  mel_fmin : Int
  mel_fmax : Int
  deriving DecidableEq, Repr

/-- `layers.TacotronSTFT(hparams.filter_length, hparams.hop_length, ...)` as
called in both loader constructors. -/
def mkSTFT (hp : Hparams) : TacotronSTFT :=
  { filter_length := hp.filter_length
    hop_length := hp.hop_length
    win_length := hp.win_length
    n_mel_channels := hp.n_mel_channels
    sampling_rate := hp.sampling_rate
    mel_fmin := hp.mel_fmin
    mel_fmax := hp.mel_fmax }

/-! ### The manifest readers and the construction-time shuffle

`load_filepaths_and_PPG` and `load_filepaths_and_text` live in the
repository's `utils` module, which is not among the provided sources, and
`random.seed`/`random.shuffle` are the Python standard library. -/

/-- Modelled from the spec: `load_filepaths_and_PPG` (repository `utils`
module, not among the provided sources) reads a plain-text manifest, one
entry per line, each line split into fields at the delimiter `|`
(first field: audio path, second field: auxiliary path). -/
def load_filepaths_and_PPG (manifestLines : List String) : List (List String) :=
  manifestLines.map (fun line => line.splitOn "|")

/-- Modelled from the spec: `load_filepaths_and_text` (repository `utils`
module, not among the provided sources) reads a plain-text manifest, one
entry per line, each line split into fields at the delimiter `|`
(first field: audio path, second field: raw text). -/
def load_filepaths_and_text (manifestLines : List String) : List (List String) :=
  manifestLines.map (fun line => line.splitOn "|")

/-- A linear congruential step, the pseudo-random core of the shuffle model. -/
def lcg (s : Nat) : Nat := (1103515245 * s + 12345) % 2147483648

/-- One pass of a draw-without-replacement Fisher–Yates shuffle, with the
input's length as structural fuel (the fuel always equals the length of the
remaining list, so the `none` branch is unreachable). -/
def shuffleGo {α : Type} : Nat → Nat → List α → List α
  | 0, _, _ => []
  | n + 1, st, xs =>
      let j := st % xs.length
      match xs[j]? with
      | some a => a :: shuffleGo n (lcg st) (xs.eraseIdx j)
      | none => []

/-- Models `random.seed(seed)` followed by `random.shuffle(xs)`: a
deterministic, seed-keyed Fisher–Yates shuffle.  The exact permutation CPython
produces is an implementation detail of its Mersenne-Twister generator; the
model keeps the contract the code relies on — the result is determined by
`(seed, xs)` alone and is a permutation of `xs`. -/
def pyShuffle {α : Type} (seed : Nat) (xs : List α) : List α :=
  shuffleGo xs.length (lcg seed) xs

/-! ### `PPG_MelLoader` -/

/-- The `PPG_MelLoader` instance state after `__init__`. -/
structure PPG_MelLoader where
  audiopaths_and_PPG : List (List String)
  max_wav_value : ℚ
  sampling_rate : Nat
  load_mel_from_disk : Bool
  stft : TacotronSTFT

/-- `PPG_MelLoader.__init__`: read the manifest, store the hyper-parameters,
build the STFT, then `random.seed(hparams.seed); random.shuffle(...)`. -/
def PPG_MelLoader.init (manifestLines : List String) (hp : Hparams) :
    PPG_MelLoader :=
  { audiopaths_and_PPG := pyShuffle hp.seed (load_filepaths_and_PPG manifestLines)
    max_wav_value := hp.max_wav_value
    sampling_rate := hp.sampling_rate
    load_mel_from_disk := hp.load_mel_from_disk
    stft := mkSTFT hp }

/-- `PPG_MelLoader.__len__`. -/
def PPG_MelLoader.len (self : PPG_MelLoader) : Nat :=
  self.audiopaths_and_PPG.length

/-- `PPG_MelLoader.get_id`: the whole `resemblyzer` pipeline
(`VoiceEncoder()`, `preprocess_wav`, `embed_utterance`) is external and
injected. -/
def PPG_MelLoader.get_id (w : World) (audiopath : String) : PyVal :=
  w.embedUtterance audiopath

/-- `PPG_MelLoader.get_mel`, lines 61–78.  The `from-waveform` branch checks
the sample rate, then normalises (`audio / self.max_wav_value`), and runs the
(injected) transform; the raise on mismatch builds its message with
`"{} {} SR doesn't match target {} SR".format(sampling_rate,
self.stft.sampling_rate)` — three placeholders, two arguments.  The
`from-disk` branch loads the array and asserts
`melspec.size(0) == self.stft.n_mel_channels`. -/
def PPG_MelLoader.get_mel (w : World) (self : PPG_MelLoader)
    (filename : String) : Except PyError (List (List Int)) :=
  if ¬ self.load_mel_from_disk then
    let audio := (w.loadWav filename).1
    let sampling_rate := (w.loadWav filename).2
    if sampling_rate ≠ self.stft.sampling_rate then
      match strFormat ["", " ", " SR doesn't match target ", " SR"]
          [toString sampling_rate, toString self.stft.sampling_rate] with
      | Except.ok msg => Except.error (PyError.valueError msg)
      | Except.error e => Except.error e
    else
      let audio_norm := audio.map (fun a => (a : ℚ) / self.max_wav_value)
      Except.ok (w.melTransform filename audio_norm)
  else
    let melspec := w.loadNpy filename
    if melspec.length = self.stft.n_mel_channels then
      Except.ok melspec
    else
      match strFormat ["Mel dimension mismatch: given ", ", expected ", ""]
          [toString melspec.length, toString self.stft.n_mel_channels] with
      | Except.ok msg => Except.error (PyError.assertionError msg)
      | Except.error e => Except.error e

/-- The loop body of `get_ppg`, lines 88–90:
`for frame in PPG_temp: frame = np.append(frame, speaker_embedding)` followed
by `return PPG_temp`.  Each iteration carries the array and the local name
`frame`; the assignment rebinds only the local name, the array is never
written.  The function returns the array component of the final state. -/
def get_ppg_loop (ppgArr : List (List Int)) (speaker_embedding : List Int) :
    List (List Int) :=
  (ppgArr.foldl
    (fun (st : List (List Int) × List Int) frame =>
      let frame := frame ++ speaker_embedding
      (st.1, frame))
    (ppgArr, [])).1

/-- `PPG_MelLoader.get_ppg`, lines 80–90: the assertion is literally
`assert type(speaker_embedding) == "np.ndarray"` — it compares the *type
object* of the embedding with the *string* `"np.ndarray"`. -/
def PPG_MelLoader.get_ppg (w : World) (_self : PPG_MelLoader)
    (ppgPath : String) (speaker_embedding : PyVal) :
    Except PyError (List (List Int)) :=
  if pyEq (PyObj.typeObj speaker_embedding.ty) (PyObj.strObj "np.ndarray") then
    Except.ok (get_ppg_loop (w.loadNpy ppgPath) speaker_embedding.data)
  else
    Except.error (PyError.assertionError "speaker_embedding的数据类型错误")

/-- `PPG_MelLoader.get_mel_PPG_pair`, lines 37–46. -/
def PPG_MelLoader.get_mel_PPG_pair (w : World) (self : PPG_MelLoader)
    (audiopath_and_PPG : List String) :
    Except PyError (List (List Int) × List (List Int)) := do
  let audiopath := audiopath_and_PPG.getD 0 ""
  let ppgPath := audiopath_and_PPG.getD 1 ""
  let speaker_embedding := PPG_MelLoader.get_id w audiopath
  let ppg ← PPG_MelLoader.get_ppg w self ppgPath speaker_embedding
  let mel ← PPG_MelLoader.get_mel w self audiopath
  return (ppg, mel)

/-- Attribute lookup on a `PPG_MelLoader` instance, restricted to the
pair-returning methods the class defines (`get_mel_PPG_pair` is the only
one).  `none` means the looked-up name is not an attribute of the class, so
access raises `AttributeError`. -/
def PPG_MelLoader.lookupPairMethod (name : String) :
    Option (World → PPG_MelLoader → List String →
      Except PyError (List (List Int) × List (List Int))) :=
  if name = "get_mel_PPG_pair" then some PPG_MelLoader.get_mel_PPG_pair
  else none

/-- `PPG_MelLoader.__getitem__`, lines 92–94:
`return self.get_mel_PPG_id_pair(self.audiopaths_and_PPG[index])`.
The attribute `get_mel_PPG_id_pair` is looked up dynamically on `self`. -/
def PPG_MelLoader.getitem (w : World) (self : PPG_MelLoader) (index : Nat) :
    Except PyError (List (List Int) × List (List Int)) :=
  match PPG_MelLoader.lookupPairMethod "get_mel_PPG_id_pair" with
  | some f => f w self (self.audiopaths_and_PPG.getD index [])
  | none => Except.error (PyError.attributeError "get_mel_PPG_id_pair")

/-! ### `TextMelLoader` -/

/-- The `TextMelLoader` instance state after `__init__`. -/
structure TextMelLoader where
  audiopaths_and_text : List (List String)
  text_cleaners : List String
  max_wav_value : ℚ
  sampling_rate : Nat
  load_mel_from_disk : Bool
  stft : TacotronSTFT

/-- `TextMelLoader.__init__`, lines 106–117. -/
def TextMelLoader.init (manifestLines : List String) (hp : Hparams) :
    TextMelLoader :=
  { audiopaths_and_text := pyShuffle hp.seed (load_filepaths_and_text manifestLines)
    text_cleaners := hp.text_cleaners
    max_wav_value := hp.max_wav_value
    sampling_rate := hp.sampling_rate
    load_mel_from_disk := hp.load_mel_from_disk
    stft := mkSTFT hp }

/-- `TextMelLoader.__len__`. -/
def TextMelLoader.len (self : TextMelLoader) : Nat :=
  self.audiopaths_and_text.length

/-- `TextMelLoader.get_mel`, lines 126–143: textually identical to
`PPG_MelLoader.get_mel`. -/
def TextMelLoader.get_mel (w : World) (self : TextMelLoader)
    (filename : String) : Except PyError (List (List Int)) :=
  if ¬ self.load_mel_from_disk then
    let audio := (w.loadWav filename).1
    let sampling_rate := (w.loadWav filename).2
    if sampling_rate ≠ self.stft.sampling_rate then
      match strFormat ["", " ", " SR doesn't match target ", " SR"]
          [toString sampling_rate, toString self.stft.sampling_rate] with
      | Except.ok msg => Except.error (PyError.valueError msg)
      | Except.error e => Except.error e
    else
      let audio_norm := audio.map (fun a => (a : ℚ) / self.max_wav_value)
      Except.ok (w.melTransform filename audio_norm)
  else
    let melspec := w.loadNpy filename
    if melspec.length = self.stft.n_mel_channels then
      Except.ok melspec
    else
      match strFormat ["Mel dimension mismatch: given ", ", expected ", ""]
          [toString melspec.length, toString self.stft.n_mel_channels] with
      | Except.ok msg => Except.error (PyError.assertionError msg)
      | Except.error e => Except.error e

/-! ### `TextMelCollate` -/

/-- One collate example: `(text_normalized, mel_normalized)` with
`text : IntTensor` of shape `(len,)` and `mel : FloatTensor` of shape
`(n_mel_channels, frames)`. -/
structure CollateExample where
  text : List Int
  mel : List (List Int)
  deriving DecidableEq, Repr

instance : Inhabited CollateExample := ⟨⟨[], []⟩⟩

/-- `tensor.size(1)` of a 2-D tensor in row-list form (all rows of a real
tensor have this common length). -/
def melFrames (mel : List (List Int)) : Nat := (mel.headD []).length

/-- A real 2-D tensor is rectangular: every row has the common length
`melFrames`. -/
def rectangular (mel : List (List Int)) : Prop :=
  ∀ r ∈ mel, r.length = melFrames mel

instance (mel : List (List Int)) : Decidable (rectangular mel) :=
  List.decidableBAll _ mel

/-- `[len(x[0]) for x in batch]`. -/
def batchLens (batch : List CollateExample) : List Nat :=
  batch.map (fun x => x.text.length)

/-- The documented contract of `torch.sort(lengths, dim=0, descending=True)`
with `stable` unset, as a predicate on the returned index permutation `ids`:
every original index appears exactly once, and the length values descend
along `ids`.  Nothing more is promised — in particular the relative order of
equal-length indices is unspecified, so any `ids` satisfying this predicate
is a possible execution of line 169. -/
def TorchSortAdmissible (lens : List Nat) (ids : List Nat) : Prop :=
  ids.Perm (List.range lens.length) ∧
  List.Pairwise (fun i j => lens.getD j 0 ≤ lens.getD i 0) ids

instance (lens ids : List Nat) : Decidable (TorchSortAdmissible lens ids) :=
  inferInstanceAs (Decidable (_ ∧ _))

/-- The sort key of one particular admissible outcome of
`torch.sort(lengths, dim=0, descending=True)`: `i` comes no later than `j`
iff `i`'s length is larger, or the lengths tie and `i` is the earlier
original index.  The library's contract (`TorchSortAdmissible`) does not
promise this tie order; this determinization only instantiates the sort for
the properties that are invariant under the tie order. -/
def idxLe (lens : List Nat) (i j : Nat) : Prop :=
  lens.getD j 0 < lens.getD i 0 ∨ (lens.getD i 0 = lens.getD j 0 ∧ i ≤ j)

instance (lens : List Nat) (i j : Nat) : Decidable (idxLe lens i j) :=
  inferInstanceAs (Decidable (_ ∨ _ ∧ _))

instance (lens : List Nat) : IsTotal Nat (idxLe lens) :=
  ⟨fun i j => by unfold idxLe; omega⟩

instance (lens : List Nat) : IsTrans Nat (idxLe lens) :=
  ⟨fun i j k hij hjk => by unfold idxLe at *; omega⟩

/-- `ids_sorted_decreasing`: one admissible outcome of
`torch.sort(lengths, dim=0, descending=True)` (the stable one), satisfying
`TorchSortAdmissible` (`sortIndices_admissible`).  The deterministic
`TextMelCollate.call` below is pinned to this outcome; properties that may
depend on the tie order are stated over every admissible permutation via
`TextMelCollate.callWith` instead. -/
def sortIndices (lens : List Nat) : List Nat :=
  List.insertionSort (idxLe lens) (List.range lens.length)

/-- `input_lengths`: the sorted length values returned by `torch.sort`. -/
def inputLengths (batch : List CollateExample) : List Nat :=
  (sortIndices (batchLens batch)).map (fun i => (batchLens batch).getD i 0)

/-- `max_input_len = input_lengths[0]`. -/
def maxInputLen (batch : List CollateExample) : Nat :=
  (inputLengths batch).headD 0

/-- Right-zero-pad a row to length `n`
(`row.zero_(); row[:xs.length] = xs`). -/
def padTo (n : Nat) (xs : List Int) : List Int :=
  xs ++ List.replicate (n - xs.length) 0

/-- `num_mels = batch[0][1].size(0)`. -/
def numMels (batch : List CollateExample) : Nat :=
  (batch.headD default).mel.length

/-- `max([...])` for a list of naturals (the Python call presupposes a
non-empty batch, where the fold below is the maximum). -/
def maxNat (l : List Nat) : Nat := l.foldr max 0

/-- `max_target_len = max([x[1].size(1) for x in batch])`. -/
def maxTargetLen (batch : List CollateExample) : Nat :=
  maxNat (batch.map (fun x => melFrames x.mel))

/-- Lines 183–185: `if max_target_len % n_frames_per_step != 0:
max_target_len += n_frames_per_step - max_target_len % n_frames_per_step`. -/
def roundUpToMultiple (f m : Nat) : Nat :=
  if m % f ≠ 0 then m + (f - m % f) else m

/-- The padded target length used to allocate `mel_padded` and
`gate_padded`. -/
def paddedTargetLen (f : Nat) (batch : List CollateExample) : Nat :=
  roundUpToMultiple f (maxTargetLen batch)

/-- One row of `mel_padded`: a zero tensor of shape `(C, T)` whose first
`mel.size(1)` columns are overwritten by `mel`
(`mel_padded[i, :, :mel.size(1)] = mel`; the source slice-assignment
presupposes `mel.size(0) = C`, which the verified claims assume). -/
def melPadRow (C T : Nat) (mel : List (List Int)) : List (List Int) :=
  (List.range C).map (fun c => padTo T (mel.getD c []))

/-- `gate_padded[i, start:] = 1` performed on a zero row of length `T`,
with Python slice semantics for a possibly negative `start`. -/
def sliceSetOnes (T : Nat) (start : Int) : List Int :=
  let s : Nat := if start < 0 then (T + start).toNat else min start.toNat T
  List.replicate s 0 ++ List.replicate (T - s) 1

/-- The five tensors returned by `TextMelCollate.__call__`. -/
structure CollateOut where
  text_padded : List (List Int)
  input_lengths : List Nat
  mel_padded : List (List (List Int))
  gate_padded : List (List Int)
  output_lengths : List Nat
  deriving DecidableEq, Repr

/-- `TextMelCollate.__call__`, lines 162–200.  Each output row `i` is built
from `batch[ids_sorted_decreasing[i]]`:
* `text_padded[i]` is the text right-zero-padded to `max_input_len`;
* `mel_padded[i]` is the mel right-zero-padded on the time axis to the
  rounded `max_target_len`;
* `gate_padded[i, mel.size(1)-1:] = 1`;
* `output_lengths[i] = mel.size(1)`. -/
def TextMelCollate.call (n_frames_per_step : Nat)
    (batch : List CollateExample) : CollateOut :=
  let ids := sortIndices (batchLens batch)
  let T := paddedTargetLen n_frames_per_step batch
  { text_padded := ids.map (fun i =>
      padTo (maxInputLen batch) (batch.getD i default).text)
    input_lengths := inputLengths batch
    mel_padded := ids.map (fun i =>
      melPadRow (numMels batch) T (batch.getD i default).mel)
    gate_padded := ids.map (fun i =>
      sliceSetOnes T ((melFrames (batch.getD i default).mel : Int) - 1))
    output_lengths := ids.map (fun i => melFrames (batch.getD i default).mel) }

/-- `TextMelCollate.__call__` with the index permutation returned by
`torch.sort` left as a parameter: with `stable` unset the library specifies
only `TorchSortAdmissible`, so every admissible `ids` is a possible
execution of the collate.  `max_input_len = input_lengths[0]` is computed
from the given permutation, as in the source.  `TextMelCollate.call` is the
special case `ids = sortIndices (batchLens batch)` (`call_eq_callWith`). -/
def TextMelCollate.callWith (n_frames_per_step : Nat) (ids : List Nat)
    (batch : List CollateExample) : CollateOut :=
  let T := paddedTargetLen n_frames_per_step batch
  { text_padded := ids.map (fun i =>
      padTo ((ids.map (fun j => (batchLens batch).getD j 0)).headD 0)
        (batch.getD i default).text)
    input_lengths := ids.map (fun j => (batchLens batch).getD j 0)
    mel_padded := ids.map (fun i =>
      melPadRow (numMels batch) T (batch.getD i default).mel)
    gate_padded := ids.map (fun i =>
      sliceSetOnes T ((melFrames (batch.getD i default).mel : Int) - 1))
    output_lengths := ids.map (fun i => melFrames (batch.getD i default).mel) }

/-- The example that ends up in row `i` of every output tensor:
`batch[ids_sorted_decreasing[i]]`. -/
def sortedExample (batch : List CollateExample) (i : Nat) : CollateExample :=
  batch.getD ((sortIndices (batchLens batch)).getD i 0) default

/-! ### Concrete fixtures used to exercise the definitions -/

/-- A concrete external world: a 16000 Hz waveform, a 2×2 array on disk, a
2×2 mel transform result, and an `ndarray` speaker embedding. -/
def sampleWorld : World :=
  { loadWav := fun _ => ([100, -50, 25], 16000)
    loadNpy := fun _ => [[1, 2], [3, 4]]
    melTransform := fun _ _ => [[5, 6], [7, 8]]
    embedUtterance := fun _ => ⟨PyType.ndarray, [9, 9]⟩ }

/-- A concrete STFT configured for 22050 Hz and 2 mel channels. -/
def sampleSTFT : TacotronSTFT :=
  { filter_length := 1024
    hop_length := 256
    win_length := 1024
    n_mel_channels := 2
    sampling_rate := 22050
    mel_fmin := 0
    mel_fmax := 8000 }

/-- A `PPG_MelLoader` that loads mels from disk. -/
def diskLoader : PPG_MelLoader :=
  { audiopaths_and_PPG := [["a.wav", "p.npy"]]
    max_wav_value := 32768
    sampling_rate := 22050
    load_mel_from_disk := true
    stft := sampleSTFT }

/-- A `PPG_MelLoader` that computes mels from waveforms. -/
def wavLoader : PPG_MelLoader :=
  { audiopaths_and_PPG := [["a.wav", "p.npy"]]
    max_wav_value := 32768
    sampling_rate := 22050
    load_mel_from_disk := false
    stft := sampleSTFT }

/-- A disk-loading `PPG_MelLoader` whose configured channel count (3) does not
match the 2-row arrays of `sampleWorld`. -/
def mismatchLoader : PPG_MelLoader :=
  { audiopaths_and_PPG := [["a.wav", "p.npy"]]
    max_wav_value := 32768
    sampling_rate := 22050
    load_mel_from_disk := true
    stft := { sampleSTFT with n_mel_channels := 3 } }

/-- A `TextMelLoader` that computes mels from waveforms. -/
def wavTextLoader : TextMelLoader :=
  { audiopaths_and_text := [["a.wav", "hello"]]
    text_cleaners := ["english_cleaners"]
    max_wav_value := 32768
    sampling_rate := 22050
    load_mel_from_disk := false
    stft := sampleSTFT }

/-- A `TextMelLoader` that loads mels from disk. -/
def diskTextLoader : TextMelLoader :=
  { audiopaths_and_text := [["a.wav", "hello"]]
    text_cleaners := ["english_cleaners"]
    max_wav_value := 32768
    sampling_rate := 22050
    load_mel_from_disk := true
    stft := sampleSTFT }

/-- A concrete three-example batch with input lengths `[3, 7, 5]`
(the spec's worked example) and target lengths `[2, 5, 3]`. -/
def sampleBatch : List CollateExample :=
  [⟨[1, 2, 3], [[10, 11], [20, 21]]⟩,
   ⟨[1, 2, 3, 4, 5, 6, 7], [[1, 2, 3, 4, 5], [6, 7, 8, 9, 10]]⟩,
   ⟨[9, 8, 7, 6, 5], [[1, 2, 3], [4, 5, 6]]⟩]

/-- A two-example batch whose input lengths tie (`[2, 2]`) but whose
contents differ: it distinguishes the admissible tie orders. -/
def tieBatch : List CollateExample :=
  [⟨[1, 2], [[10]]⟩, ⟨[3, 4], [[20]]⟩]

/-- Concrete hyper-parameters (seed 3). -/
def hpA : Hparams :=
  { text_cleaners := ["english_cleaners"]
    max_wav_value := 32768
    sampling_rate := 22050
    load_mel_from_disk := true
    filter_length := 1024
    hop_length := 256
    win_length := 1024
    n_mel_channels := 2
    mel_fmin := 0
    mel_fmax := 8000
    seed := 3 }

/-- Hyper-parameters that differ from `hpA` everywhere it matters except the
seed. -/
def hpB : Hparams :=
  { text_cleaners := []
    max_wav_value := 1
    sampling_rate := 16000
    load_mel_from_disk := false
    filter_length := 800
    hop_length := 200
    win_length := 800
    n_mel_channels := 80
    mel_fmin := 50
    mel_fmax := 7600
    seed := 3 }

/-- A concrete four-line manifest. -/
def sampleManifest : List String :=
  ["a.wav|p0.npy", "b.wav|p1.npy", "c.wav|p2.npy", "d.wav|p3.npy"]

/-! ### Helper lemmas -/

theorem perm_getElem_cons_eraseIdx {α : Type} (xs : List α) (j : Nat)
    (h : j < xs.length) : (xs[j] :: xs.eraseIdx j).Perm xs := by
  induction xs generalizing j with
  | nil => simp at h
  | cons x t ih =>
    cases j with
    | zero => simp
    | succ j =>
      have hj : j < t.length := by simpa using h
      simp only [List.getElem_cons_succ, List.eraseIdx_cons_succ]
      exact (List.Perm.swap x (t[j]) (t.eraseIdx j)).trans ((ih j hj).cons x)

theorem shuffleGo_perm {α : Type} :
    ∀ (n st : Nat) (xs : List α), xs.length = n → (shuffleGo n st xs).Perm xs := by
  intro n
  induction n with
  | zero =>
    intro st xs h
    rw [List.length_eq_zero] at h
    subst h
    simp [shuffleGo]
  | succ n ih =>
    intro st xs h
    have hpos : 0 < xs.length := by omega
    have hj : st % xs.length < xs.length := Nat.mod_lt _ hpos
    have hlen : (xs.eraseIdx (st % xs.length)).length = n := by
      rw [List.length_eraseIdx]
      simp only [hj, if_pos]
      omega
    have hsome := List.getElem?_eq_getElem hj
    unfold shuffleGo
    simp only [hsome]
    exact ((ih (lcg st) _ hlen).cons _).trans (perm_getElem_cons_eraseIdx xs _ hj)

theorem pyShuffle_perm {α : Type} (seed : Nat) (xs : List α) :
    (pyShuffle seed xs).Perm xs :=
  shuffleGo_perm xs.length (lcg seed) xs rfl

theorem pyShuffle_length {α : Type} (seed : Nat) (xs : List α) :
    (pyShuffle seed xs).length = xs.length :=
  (pyShuffle_perm seed xs).length_eq

theorem le_maxNat_of_mem {a : Nat} {l : List Nat} (h : a ∈ l) : a ≤ maxNat l := by
  induction l with
  | nil => simp at h
  | cons x t ih =>
    rcases List.mem_cons.mp h with h | h
    · subst h; exact le_max_left _ _
    · exact le_trans (ih h) (le_max_right _ _)

theorem maxNat_mem {l : List Nat} (h : l ≠ []) : maxNat l ∈ l := by
  induction l with
  | nil => exact absurd rfl h
  | cons x t ih =>
    cases t with
    | nil => simp [maxNat]
    | cons y u =>
      have hm : maxNat (x :: y :: u) = max x (maxNat (y :: u)) := rfl
      rcases le_total x (maxNat (y :: u)) with h' | h'
      · rw [hm, Nat.max_eq_right h']
        exact List.mem_cons_of_mem _ (ih (by simp))
      · rw [hm, Nat.max_eq_left h']
        exact List.mem_cons_self _ _

theorem padTo_length {n : Nat} {xs : List Int} (h : xs.length ≤ n) :
    (padTo n xs).length = n := by
  simp only [padTo, List.length_append, List.length_replicate]
  omega

theorem idxLe_le {lens : List Nat} {i j : Nat} (h : idxLe lens i j) :
    lens.getD j 0 ≤ lens.getD i 0 := by
  unfold idxLe at h
  omega

theorem sortIndices_perm (lens : List Nat) :
    (sortIndices lens).Perm (List.range lens.length) :=
  List.perm_insertionSort _ _

theorem sortIndices_length (lens : List Nat) :
    (sortIndices lens).length = lens.length := by
  simpa using (sortIndices_perm lens).length_eq

theorem sortIndices_sorted (lens : List Nat) :
    List.Pairwise (idxLe lens) (sortIndices lens) :=
  List.sorted_insertionSort _ _

theorem sortIndices_nodup (lens : List Nat) : (sortIndices lens).Nodup :=
  (sortIndices_perm lens).symm.nodup (List.nodup_range _)

theorem sortIndices_getElem_lt (lens : List Nat) (k : Nat)
    (hk : k < (sortIndices lens).length) : (sortIndices lens)[k] < lens.length := by
  have hmem : (sortIndices lens)[k] ∈ sortIndices lens := List.getElem_mem _
  have := (sortIndices_perm lens).mem_iff.mp hmem
  simpa [List.mem_range] using this

theorem le_roundUpToMultiple (f m : Nat) : m ≤ roundUpToMultiple f m := by
  unfold roundUpToMultiple
  split <;> omega

theorem roundUpToMultiple_mod (f m : Nat) (hf : 0 < f) :
    roundUpToMultiple f m % f = 0 := by
  unfold roundUpToMultiple
  split
  · rename_i hne
    have h1 : m % f < f := Nat.mod_lt _ hf
    have hdm := Nat.div_add_mod m f
    set A := f * (m / f) with hA
    set r := m % f with hr
    have he : m + (f - r) = A + f := by omega
    rw [he, hA, Nat.mul_add_mod]
    exact Nat.mod_self f
  · rename_i hz
    simpa using hz

theorem roundUpToMultiple_lt (f m : Nat) (hf : 0 < f) :
    roundUpToMultiple f m < m + f := by
  unfold roundUpToMultiple
  have h1 : m % f < f := Nat.mod_lt _ hf
  set r := m % f with hr
  split <;> omega

theorem roundUpToMultiple_min (f m u : Nat) (hf : 0 < f) (hu : u % f = 0)
    (hmu : m ≤ u) : roundUpToMultiple f m ≤ u := by
  by_contra hlt
  push_neg at hlt
  have h1 : roundUpToMultiple f m % f = 0 := roundUpToMultiple_mod f m hf
  have h2 : roundUpToMultiple f m < m + f := roundUpToMultiple_lt f m hf
  -- u and the rounded value are both multiples of f, with
  -- u < round ≤ m + f - 1 ≤ u + f - 1, so they must be equal: contradiction
  obtain ⟨b, hb⟩ : f ∣ u := Nat.dvd_of_mod_eq_zero hu
  obtain ⟨c, hc⟩ : f ∣ roundUpToMultiple f m := Nat.dvd_of_mod_eq_zero h1
  have hbc : f * b < f * c := by omega
  have hb_lt_c : b < c := lt_of_mul_lt_mul_left hbc (Nat.zero_le f)
  have : f * c < f * b + f := by omega
  have : f * c < f * (b + 1) := by rw [Nat.mul_add, Nat.mul_one]; omega
  have hcb : c < b + 1 := lt_of_mul_lt_mul_left this (Nat.zero_le f)
  omega

theorem melFrames_le_maxTargetLen {batch : List CollateExample}
    {x : CollateExample} (hx : x ∈ batch) :
    melFrames x.mel ≤ maxTargetLen batch :=
  le_maxNat_of_mem (List.mem_map_of_mem _ hx)

theorem maxTargetLen_le_paddedTargetLen (f : Nat) (batch : List CollateExample) :
    maxTargetLen batch ≤ paddedTargetLen f batch :=
  le_roundUpToMultiple _ _

theorem sliceSetOnes_eq (T L : Nat) (hL : 1 ≤ L) (hLT : L - 1 ≤ T) :
    sliceSetOnes T ((L : Int) - 1) =
      List.replicate (L - 1) 0 ++ List.replicate (T - (L - 1)) 1 := by
  unfold sliceSetOnes
  have h1 : ¬ ((L : Int) - 1 < 0) := by omega
  rw [if_neg h1]
  have h2a : ((L : Int) - 1).toNat = L - 1 := by omega
  rw [h2a, Nat.min_eq_left hLT]

theorem getD_replicate_append_left {a b : Nat} {x y : Int} {k : Nat} {d : Int}
    (hk : k < a) :
    (List.replicate a x ++ List.replicate b y).getD k d = x := by
  rw [List.getD_eq_getElem _ _ (by simp; omega)]
  rw [List.getElem_append_left (by simpa using hk)]
  exact List.getElem_replicate _ _

theorem getD_replicate_append_right {a b : Nat} {x y : Int} {k : Nat} {d : Int}
    (hk1 : a ≤ k) (hk2 : k < a + b) :
    (List.replicate a x ++ List.replicate b y).getD k d = y := by
  rw [List.getD_eq_getElem _ _ (by simp; omega)]
  rw [List.getElem_append_right (by simpa using hk1)]
  exact List.getElem_replicate _ _

theorem batchLens_length (batch : List CollateExample) :
    (batchLens batch).length = batch.length :=
  List.length_map _ _

theorem map_sortIndices_getD {β : Type} (batch : List CollateExample)
    (g : Nat → β) (d : β) (i : Nat) (hi : i < batch.length) :
    ((sortIndices (batchLens batch)).map g).getD i d =
      g ((sortIndices (batchLens batch)).getD i 0) := by
  have hi' : i < (sortIndices (batchLens batch)).length := by
    rw [sortIndices_length, batchLens_length]; exact hi
  rw [List.getD_eq_getElem _ _ (by simpa using hi'), List.getElem_map,
    List.getD_eq_getElem _ _ hi']

theorem sortIndices_getD_lt (batch : List CollateExample) (i : Nat)
    (hi : i < batch.length) :
    (sortIndices (batchLens batch)).getD i 0 < batch.length := by
  have hi' : i < (sortIndices (batchLens batch)).length := by
    rw [sortIndices_length, batchLens_length]; exact hi
  rw [List.getD_eq_getElem _ _ hi']
  have := sortIndices_getElem_lt (batchLens batch) i hi'
  rwa [batchLens_length] at this

theorem sortedExample_mem (batch : List CollateExample) (i : Nat)
    (hi : i < batch.length) : sortedExample batch i ∈ batch := by
  unfold sortedExample
  have h := sortIndices_getD_lt batch i hi
  rw [List.getD_eq_getElem _ _ h]
  exact List.getElem_mem _

theorem maxInputLen_eq (batch : List CollateExample) (hb : batch ≠ []) :
    maxInputLen batch = maxNat (batchLens batch) := by
  have hpos : 0 < (batchLens batch).length := by
    rw [batchLens_length]
    exact List.length_pos.mpr hb
  have hspos : 0 < (sortIndices (batchLens batch)).length := by
    rw [sortIndices_length]; exact hpos
  obtain ⟨s0, srest, he⟩ :=
    List.exists_cons_of_ne_nil (List.ne_nil_of_length_pos hspos)
  have hs0 : (sortIndices (batchLens batch))[0] = s0 := by
    simp [he]
  have h0 : maxInputLen batch = (batchLens batch).getD s0 0 := by
    unfold maxInputLen inputLengths
    rw [he]
    rfl
  have hs0lt : s0 < (batchLens batch).length := by
    rw [← hs0]
    exact sortIndices_getElem_lt _ _ hspos
  -- upper bound: the head of the sorted lengths is one of the lengths
  have hup : (batchLens batch).getD s0 0 ≤ maxNat (batchLens batch) := by
    rw [List.getD_eq_getElem _ _ hs0lt]
    exact le_maxNat_of_mem (List.getElem_mem _)
  -- lower bound: the maximum is attained at some original index jm, which
  -- appears at some sorted position k; position 0 dominates position k
  have hlow : maxNat (batchLens batch) ≤ (batchLens batch).getD s0 0 := by
    have hmem : maxNat (batchLens batch) ∈ batchLens batch :=
      maxNat_mem (List.ne_nil_of_length_pos hpos)
    obtain ⟨jm, hjm, hjv⟩ := List.mem_iff_getElem.mp hmem
    have hjm_mem : jm ∈ sortIndices (batchLens batch) :=
      (sortIndices_perm _).mem_iff.mpr (List.mem_range.mpr hjm)
    obtain ⟨k, hk, hkv⟩ := List.mem_iff_getElem.mp hjm_mem
    have hjd : (batchLens batch).getD jm 0 = maxNat (batchLens batch) := by
      rw [List.getD_eq_getElem _ _ hjm]; exact hjv
    rcases Nat.eq_zero_or_pos k with hk0 | hkpos
    · subst hk0
      rw [← hjd, ← hkv, hs0]
    · have hpair := List.pairwise_iff_getElem.mp (sortIndices_sorted (batchLens batch))
        0 k hspos hk hkpos
      have := idxLe_le hpair
      rw [hs0, hkv] at this
      rw [← hjd]
      exact this
  omega

/-! ### Claim theorems -/

/-- C1: for every index in range of the manifest,
`PPG_MelLoader.__getitem__(i)` fails with an attribute-lookup error rather
than returning an (input, spectrogram) pair: it invokes
`get_mel_PPG_id_pair`, a name the class does not define (it defines
`get_mel_PPG_pair`), so item access never succeeds. -/
theorem getitem_always_attribute_error (w : World) (self : PPG_MelLoader)
    (index : Nat) (_hidx : index < PPG_MelLoader.len self) :
    PPG_MelLoader.getitem w self index =
      Except.error (PyError.attributeError "get_mel_PPG_id_pair") := rfl

theorem getitem_always_attribute_error_witness :
    0 < PPG_MelLoader.len diskLoader ∧
      PPG_MelLoader.getitem sampleWorld diskLoader 0 =
        Except.error (PyError.attributeError "get_mel_PPG_id_pair") :=
  ⟨by decide, getitem_always_attribute_error sampleWorld diskLoader 0 (by decide)⟩

/-- C5 (divergence witness): with mels computed from waveforms and a file
whose sample rate (16000) differs from the configured rate (22050), `get_mel`
does fail before returning a tensor, but the exception is an `IndexError`
raised by `str.format` — the `ValueError`'s format string has three `{}`
placeholders and only two arguments — not the descriptive `ValueError` the
claim describes.  Both loader classes share the defect. -/
theorem get_mel_sr_mismatch_raises_format_error :
    PPG_MelLoader.get_mel sampleWorld wavLoader "a.wav" =
      Except.error (PyError.indexError
        "Replacement index out of range for positional args tuple") ∧
    TextMelLoader.get_mel sampleWorld wavTextLoader "a.wav" =
      Except.error (PyError.indexError
        "Replacement index out of range for positional args tuple") := by
  constructor <;> rfl

/-- C7 (divergence witness): `get_ppg`'s assertion
`type(speaker_embedding) == "np.ndarray"` compares a type object against a
string, which is never true, so the assertion fails for every embedding —
including a genuine numpy ndarray, for which the claim says it passes. -/
theorem get_ppg_assertion_always_fails (w : World) (self : PPG_MelLoader)
    (ppgPath : String) (speaker_embedding : PyVal) :
    PPG_MelLoader.get_ppg w self ppgPath speaker_embedding =
      Except.error (PyError.assertionError "speaker_embedding的数据类型错误") := rfl

/-- C8: the per-frame augmentation loop of `get_ppg`
(`for frame in PPG_temp: frame = np.append(frame, speaker_embedding)`) only
rebinds the loop variable and discards the appended vector, so the array the
`return` statement would hand back is the loaded frame-probability array,
unmodified — the speaker-vector augmentation never takes effect. -/
theorem get_ppg_loop_no_op (ppgArr : List (List Int)) (emb : List Int) :
    get_ppg_loop ppgArr emb = ppgArr := by
  unfold get_ppg_loop
  suffices h : ∀ (l : List (List Int)) (st : List (List Int) × List Int),
      (l.foldl (fun st frame => (st.1, frame ++ emb)) st).1 = st.1 by
    exact h ppgArr (ppgArr, [])
  intro l
  induction l with
  | nil => intro st; rfl
  | cons x t ih => intro st; exact ih _

/-- C9: for any manifest and any seed, both loaders have length exactly the
number of manifest entries, and the constructor's shuffle is a permutation of
the loaded entries — nothing dropped, nothing duplicated. -/
theorem loader_length_and_shuffle_perm (manifestLines : List String)
    (hp : Hparams) :
    PPG_MelLoader.len (PPG_MelLoader.init manifestLines hp) =
      manifestLines.length ∧
    ((PPG_MelLoader.init manifestLines hp).audiopaths_and_PPG).Perm
      (load_filepaths_and_PPG manifestLines) ∧
    TextMelLoader.len (TextMelLoader.init manifestLines hp) =
      manifestLines.length ∧
    ((TextMelLoader.init manifestLines hp).audiopaths_and_text).Perm
      (load_filepaths_and_text manifestLines) := by
  refine ⟨?_, pyShuffle_perm _ _, ?_, pyShuffle_perm _ _⟩
  · show (pyShuffle hp.seed (load_filepaths_and_PPG manifestLines)).length = _
    rw [pyShuffle_length]
    exact List.length_map _ _
  · show (pyShuffle hp.seed (load_filepaths_and_text manifestLines)).length = _
    rw [pyShuffle_length]
    exact List.length_map _ _

/-- C10: the construction-time shuffle is deterministic given the seed: two
loaders built from the same manifest contents with the same configured seed
hold their entries in the identical order (for both loader classes). -/
theorem construction_shuffle_deterministic (manifestLines : List String)
    (hp1 hp2 : Hparams) (hs : hp1.seed = hp2.seed) :
    (PPG_MelLoader.init manifestLines hp1).audiopaths_and_PPG =
      (PPG_MelLoader.init manifestLines hp2).audiopaths_and_PPG ∧
    (TextMelLoader.init manifestLines hp1).audiopaths_and_text =
      (TextMelLoader.init manifestLines hp2).audiopaths_and_text := by
  constructor <;> simp [PPG_MelLoader.init, TextMelLoader.init, hs]

theorem construction_shuffle_deterministic_witness :
    hpA.seed = hpB.seed ∧
    (PPG_MelLoader.init sampleManifest hpA).audiopaths_and_PPG =
      (PPG_MelLoader.init sampleManifest hpB).audiopaths_and_PPG :=
  ⟨rfl, (construction_shuffle_deterministic sampleManifest hpA hpB rfl).1⟩

/-- C6: when mels are loaded precomputed from storage, `get_mel` (both loader
classes) returns the loaded array exactly when its first dimension equals the
configured mel channel count, and otherwise fails with an assertion error; it
never returns an array with a mismatched channel dimension. -/
theorem get_mel_disk_channel_guard (w : World) (selfP : PPG_MelLoader)
    (selfT : TextMelLoader) (filename : String)
    (hdP : selfP.load_mel_from_disk = true)
    (hdT : selfT.load_mel_from_disk = true) :
    (∀ m, PPG_MelLoader.get_mel w selfP filename = Except.ok m →
        m.length = selfP.stft.n_mel_channels) ∧
    ((w.loadNpy filename).length = selfP.stft.n_mel_channels →
        PPG_MelLoader.get_mel w selfP filename = Except.ok (w.loadNpy filename)) ∧
    ((w.loadNpy filename).length ≠ selfP.stft.n_mel_channels →
        ∃ msg, PPG_MelLoader.get_mel w selfP filename =
          Except.error (PyError.assertionError msg)) ∧
    (∀ m, TextMelLoader.get_mel w selfT filename = Except.ok m →
        m.length = selfT.stft.n_mel_channels) ∧
    ((w.loadNpy filename).length = selfT.stft.n_mel_channels →
        TextMelLoader.get_mel w selfT filename = Except.ok (w.loadNpy filename)) ∧
    ((w.loadNpy filename).length ≠ selfT.stft.n_mel_channels →
        ∃ msg, TextMelLoader.get_mel w selfT filename =
          Except.error (PyError.assertionError msg)) := by
  have hfmt : ∀ a b : String,
      strFormat ["Mel dimension mismatch: given ", ", expected ", ""] [a, b] =
        Except.ok ("Mel dimension mismatch: given " ++ a ++
          (", expected " ++ b ++ "")) := fun a b => rfl
  have hP : PPG_MelLoader.get_mel w selfP filename =
      (if (w.loadNpy filename).length = selfP.stft.n_mel_channels
       then Except.ok (w.loadNpy filename)
       else Except.error (PyError.assertionError
         ("Mel dimension mismatch: given " ++ toString (w.loadNpy filename).length ++
          (", expected " ++ toString selfP.stft.n_mel_channels ++ "")))) := by
    unfold PPG_MelLoader.get_mel
    rw [hdP]
    simp only [Bool.not_eq_true, not_true_eq_false, if_false, Bool.false_eq_true,
      ite_false, hfmt]
  have hT : TextMelLoader.get_mel w selfT filename =
      (if (w.loadNpy filename).length = selfT.stft.n_mel_channels
       then Except.ok (w.loadNpy filename)
       else Except.error (PyError.assertionError
         ("Mel dimension mismatch: given " ++ toString (w.loadNpy filename).length ++
          (", expected " ++ toString selfT.stft.n_mel_channels ++ "")))) := by
    unfold TextMelLoader.get_mel
    rw [hdT]
    simp only [Bool.not_eq_true, not_true_eq_false, if_false, Bool.false_eq_true,
      ite_false, hfmt]
  refine ⟨?_, ?_, ?_, ?_, ?_, ?_⟩
  · intro m hm
    rw [hP] at hm
    by_cases h : (w.loadNpy filename).length = selfP.stft.n_mel_channels
    · rw [if_pos h] at hm
      cases hm
      exact h
    · rw [if_neg h] at hm
      exact absurd hm (by simp)
  · intro h
    rw [hP, if_pos h]
  · intro h
    exact ⟨_, by rw [hP, if_neg h]⟩
  · intro m hm
    rw [hT] at hm
    by_cases h : (w.loadNpy filename).length = selfT.stft.n_mel_channels
    · rw [if_pos h] at hm
      cases hm
      exact h
    · rw [if_neg h] at hm
      exact absurd hm (by simp)
  · intro h
    rw [hT, if_pos h]
  · intro h
    exact ⟨_, by rw [hT, if_neg h]⟩

theorem get_mel_disk_channel_guard_witness :
    diskLoader.load_mel_from_disk = true ∧
    diskTextLoader.load_mel_from_disk = true ∧
    (sampleWorld.loadNpy "a.wav").length = diskLoader.stft.n_mel_channels ∧
    PPG_MelLoader.get_mel sampleWorld diskLoader "a.wav" =
      Except.ok (sampleWorld.loadNpy "a.wav") :=
  ⟨rfl, rfl, rfl,
    (get_mel_disk_channel_guard sampleWorld diskLoader diskTextLoader "a.wav"
      rfl rfl).2.1 rfl⟩

theorem batchLens_getD (batch : List CollateExample) (s : Nat)
    (hs : s < batch.length) :
    (batchLens batch).getD s 0 = (batch.getD s default).text.length := by
  have hs' : s < (batchLens batch).length := by rw [batchLens_length]; exact hs
  rw [List.getD_eq_getElem _ _ hs', List.getD_eq_getElem _ _ hs]
  simp [batchLens]

/-- C2: for every collated batch and every row `i` whose example has true
target length `L ≥ 1`, with `T` the padded target length: `L ≤ T`, the row's
recorded output length is `L`, the stop-flag row has length `T`, is `0` at
every index in `[0, L-2]`, and is `1` at every index in `[L-1, T-1]`. -/
theorem collate_stop_flags (f : Nat) (batch : List CollateExample) (i : Nat)
    (hi : i < batch.length)
    (hL : 1 ≤ melFrames (sortedExample batch i).mel) :
    melFrames (sortedExample batch i).mel ≤ paddedTargetLen f batch ∧
    (TextMelCollate.call f batch).output_lengths.getD i 0 =
      melFrames (sortedExample batch i).mel ∧
    ((TextMelCollate.call f batch).gate_padded.getD i []).length =
      paddedTargetLen f batch ∧
    (∀ k, k + 1 < melFrames (sortedExample batch i).mel →
      ((TextMelCollate.call f batch).gate_padded.getD i []).getD k 1 = 0) ∧
    (∀ k, melFrames (sortedExample batch i).mel - 1 ≤ k →
      k < paddedTargetLen f batch →
      ((TextMelCollate.call f batch).gate_padded.getD i []).getD k 0 = 1) := by
  have hLT : melFrames (sortedExample batch i).mel ≤ paddedTargetLen f batch :=
    le_trans (melFrames_le_maxTargetLen (sortedExample_mem batch i hi))
      (maxTargetLen_le_paddedTargetLen f batch)
  have hout : (TextMelCollate.call f batch).output_lengths.getD i 0 =
      melFrames (sortedExample batch i).mel := by
    simp only [TextMelCollate.call]
    rw [map_sortIndices_getD batch _ _ i hi]
    rfl
  have hrow : (TextMelCollate.call f batch).gate_padded.getD i [] =
      sliceSetOnes (paddedTargetLen f batch)
        ((melFrames (sortedExample batch i).mel : Int) - 1) := by
    simp only [TextMelCollate.call]
    rw [map_sortIndices_getD batch _ _ i hi]
    rfl
  have heq := sliceSetOnes_eq (paddedTargetLen f batch)
    (melFrames (sortedExample batch i).mel) hL (by omega)
  refine ⟨hLT, hout, ?_, ?_, ?_⟩
  · rw [hrow, heq]
    simp only [List.length_append, List.length_replicate]
    omega
  · intro k hk
    rw [hrow, heq]
    exact getD_replicate_append_left (by omega)
  · intro k hk1 hk2
    rw [hrow, heq]
    exact getD_replicate_append_right (by omega) (by omega)

theorem collate_stop_flags_witness :
    0 < sampleBatch.length ∧
    1 ≤ melFrames (sortedExample sampleBatch 0).mel ∧
    ((TextMelCollate.call 2 sampleBatch).gate_padded.getD 0 []).getD 4 0 = 1 ∧
    ((TextMelCollate.call 2 sampleBatch).gate_padded.getD 0 []).getD 3 1 = 0 :=
  ⟨by decide, by decide,
    (collate_stop_flags 2 sampleBatch 0 (by decide) (by decide)).2.2.2.2 4
      (by decide) (by decide),
    (collate_stop_flags 2 sampleBatch 0 (by decide) (by decide)).2.2.2.1 3
      (by decide)⟩

/-- C3: for a non-empty batch with consistent (rectangular, equal-channel)
mels, collate returns `text_padded` of shape exactly
`(N, max input length)`, and the target tensor's last dimension is the
smallest multiple of `n_frames_per_step` that is `≥` the true maximum target
length (hence divisible by the factor and `≥` the true max). -/
theorem collate_output_shapes (f : Nat) (hf : 0 < f)
    (batch : List CollateExample) (hb : batch ≠ [])
    (hrect : ∀ x ∈ batch, rectangular x.mel)
    (_hch : ∀ x ∈ batch, x.mel.length = numMels batch) :
    (TextMelCollate.call f batch).text_padded.length = batch.length ∧
    (∀ row ∈ (TextMelCollate.call f batch).text_padded,
      row.length = maxNat (batchLens batch)) ∧
    (TextMelCollate.call f batch).mel_padded.length = batch.length ∧
    (∀ m ∈ (TextMelCollate.call f batch).mel_padded,
      m.length = numMels batch ∧
      ∀ ch ∈ m, ch.length = paddedTargetLen f batch) ∧
    paddedTargetLen f batch % f = 0 ∧
    maxTargetLen batch ≤ paddedTargetLen f batch ∧
    (∀ u, u % f = 0 → maxTargetLen batch ≤ u → paddedTargetLen f batch ≤ u) := by
  refine ⟨?_, ?_, ?_, ?_, roundUpToMultiple_mod f _ hf,
    maxTargetLen_le_paddedTargetLen f batch,
    fun u hu hmu => roundUpToMultiple_min f _ u hf hu hmu⟩
  · simp [TextMelCollate.call, sortIndices_length, batchLens_length]
  · intro row hrow
    simp only [TextMelCollate.call, List.mem_map] at hrow
    obtain ⟨j, hj, hrow⟩ := hrow
    have hjlt : j < batch.length := by
      have := (sortIndices_perm _).mem_iff.mp hj
      rw [List.mem_range, batchLens_length] at this
      exact this
    have hmem : batch.getD j default ∈ batch := by
      rw [List.getD_eq_getElem _ _ hjlt]
      exact List.getElem_mem _
    have htl : (batch.getD j default).text.length ≤ maxNat (batchLens batch) :=
      le_maxNat_of_mem (List.mem_map_of_mem _ hmem)
    rw [← hrow, padTo_length (by rw [maxInputLen_eq batch hb]; exact htl)]
    exact maxInputLen_eq batch hb
  · simp [TextMelCollate.call, sortIndices_length, batchLens_length]
  · intro m hm
    simp only [TextMelCollate.call, List.mem_map] at hm
    obtain ⟨j, hj, hm⟩ := hm
    have hjlt : j < batch.length := by
      have := (sortIndices_perm _).mem_iff.mp hj
      rw [List.mem_range, batchLens_length] at this
      exact this
    have hmem : batch.getD j default ∈ batch := by
      rw [List.getD_eq_getElem _ _ hjlt]
      exact List.getElem_mem _
    constructor
    · rw [← hm]
      simp [melPadRow]
    · intro ch hch2
      rw [← hm] at hch2
      simp only [melPadRow, List.mem_map, List.mem_range] at hch2
      obtain ⟨c, _hc, hch2⟩ := hch2
      have hblen : ((batch.getD j default).mel.getD c []).length ≤
          paddedTargetLen f batch := by
        by_cases hcl : c < (batch.getD j default).mel.length
        · rw [List.getD_eq_getElem _ _ hcl]
          have hrowmem : (batch.getD j default).mel[c] ∈ (batch.getD j default).mel :=
            List.getElem_mem _
          rw [hrect _ hmem _ hrowmem]
          exact le_trans (melFrames_le_maxTargetLen hmem)
            (maxTargetLen_le_paddedTargetLen f batch)
        · rw [List.getD_eq_default _ _ (by omega)]
          exact Nat.zero_le _
      rw [← hch2, padTo_length hblen]

theorem collate_output_shapes_witness :
    0 < 2 ∧ sampleBatch ≠ [] ∧
    (∀ x ∈ sampleBatch, rectangular x.mel) ∧
    (∀ x ∈ sampleBatch, x.mel.length = numMels sampleBatch) ∧
    (TextMelCollate.call 2 sampleBatch).text_padded.length = sampleBatch.length ∧
    paddedTargetLen 2 sampleBatch % 2 = 0 ∧
    maxTargetLen sampleBatch ≤ paddedTargetLen 2 sampleBatch :=
  ⟨by decide, by decide, by decide, by decide,
    (collate_output_shapes 2 (by decide) sampleBatch (by decide) (by decide)
      (by decide)).1,
    (collate_output_shapes 2 (by decide) sampleBatch (by decide) (by decide)
      (by decide)).2.2.2.2.1,
    (collate_output_shapes 2 (by decide) sampleBatch (by decide) (by decide)
      (by decide)).2.2.2.2.2.1⟩

theorem sortIndices_admissible (lens : List Nat) :
    TorchSortAdmissible lens (sortIndices lens) :=
  ⟨sortIndices_perm lens, (sortIndices_sorted lens).imp idxLe_le⟩

theorem call_eq_callWith (f : Nat) (batch : List CollateExample) :
    TextMelCollate.call f batch =
      TextMelCollate.callWith f (sortIndices (batchLens batch)) batch := rfl

theorem permRange_length {N : Nat} {ids : List Nat}
    (h : ids.Perm (List.range N)) : ids.length = N := by
  simpa using h.length_eq

theorem permRange_getD_lt {N : Nat} {ids : List Nat}
    (h : ids.Perm (List.range N)) {i : Nat} (hi : i < ids.length) :
    ids.getD i 0 < N := by
  rw [List.getD_eq_getElem _ _ hi]
  have hm := h.mem_iff.mp (List.getElem_mem hi)
  simpa [List.mem_range] using hm

theorem map_getD_of_lt {β : Type} (ids : List Nat) (g : Nat → β) (d : β)
    (i : Nat) (hi : i < ids.length) :
    (ids.map g).getD i d = g (ids.getD i 0) := by
  rw [List.getD_eq_getElem _ _ (by simpa using hi), List.getElem_map,
    List.getD_eq_getElem _ _ hi]

/-- C4 (counterexample to the tie clause): `torch.sort` is called without
`stable=True`, so its contract admits, for the tied lengths `[2, 2]` of
`tieBatch`, the index order `[1, 0]` as well as `[0, 1]`.  Under the
admissible execution `[1, 0]` the tied examples appear in reversed original
order in the collate output — and the two admissible executions produce
different outputs — so the program does not establish "ties broken by stable
original order". -/
theorem collate_stable_ties_counterexample :
    TorchSortAdmissible (batchLens tieBatch) [1, 0] ∧
    TorchSortAdmissible (batchLens tieBatch) [0, 1] ∧
    (batchLens tieBatch).getD 0 0 = (batchLens tieBatch).getD 1 0 ∧
    (TextMelCollate.callWith 1 [1, 0] tieBatch).text_padded.getD 0 [] =
      (tieBatch.getD 1 default).text ∧
    (TextMelCollate.callWith 1 [1, 0] tieBatch).text_padded.getD 1 [] =
      (tieBatch.getD 0 default).text ∧
    TextMelCollate.callWith 1 [1, 0] tieBatch ≠
      TextMelCollate.callWith 1 [0, 1] tieBatch := by
  decide

/-- C4 (amended): for every non-empty batch and every index permutation
admissible for `torch.sort(lengths, descending=True)` — the tie order being
unspecified by the library without `stable=True` — the collate orders
examples by input length, descending, and all five returned arrays are
indexed by this same order: row `i` of each comes from `batch[ids[i]]`.
`TextMelCollate.call` is the `ids = sortIndices (batchLens batch)` instance
(`call_eq_callWith`, `sortIndices_admissible`). -/
theorem collate_descending_consistent_any_sort (f : Nat)
    (batch : List CollateExample) (_hb : batch ≠ []) (ids : List Nat)
    (hadm : TorchSortAdmissible (batchLens batch) ids) :
    ids.Perm (List.range batch.length) ∧
    (∀ a b, a < b → b < ids.length →
      (batchLens batch).getD (ids.getD b 0) 0 ≤
        (batchLens batch).getD (ids.getD a 0) 0) ∧
    (∀ i, i < batch.length →
      (TextMelCollate.callWith f ids batch).input_lengths.getD i 0 =
        (batch.getD (ids.getD i 0) default).text.length ∧
      (TextMelCollate.callWith f ids batch).text_padded.getD i [] =
        padTo ((TextMelCollate.callWith f ids batch).input_lengths.headD 0)
          (batch.getD (ids.getD i 0) default).text ∧
      (TextMelCollate.callWith f ids batch).mel_padded.getD i [] =
        melPadRow (numMels batch) (paddedTargetLen f batch)
          (batch.getD (ids.getD i 0) default).mel ∧
      (TextMelCollate.callWith f ids batch).gate_padded.getD i [] =
        sliceSetOnes (paddedTargetLen f batch)
          ((melFrames (batch.getD (ids.getD i 0) default).mel : Int) - 1) ∧
      (TextMelCollate.callWith f ids batch).output_lengths.getD i 0 =
        melFrames (batch.getD (ids.getD i 0) default).mel) := by
  obtain ⟨hperm, hsorted⟩ := hadm
  have hperm' : ids.Perm (List.range batch.length) := by
    rwa [batchLens_length] at hperm
  refine ⟨hperm', ?_, ?_⟩
  · intro a b hab hblt
    have halt : a < ids.length := lt_trans hab hblt
    have hpair := List.pairwise_iff_getElem.mp hsorted a b halt hblt hab
    rw [List.getD_eq_getElem _ _ halt, List.getD_eq_getElem _ _ hblt]
    exact hpair
  · intro i hi
    have hi' : i < ids.length := by rw [permRange_length hperm']; exact hi
    have hslt : ids.getD i 0 < batch.length := permRange_getD_lt hperm' hi'
    refine ⟨?_, ?_, ?_, ?_, ?_⟩
    · simp only [TextMelCollate.callWith]
      rw [map_getD_of_lt ids _ _ i hi']
      exact batchLens_getD batch _ hslt
    · simp only [TextMelCollate.callWith]
      rw [map_getD_of_lt ids _ _ i hi']
    · simp only [TextMelCollate.callWith]
      rw [map_getD_of_lt ids _ _ i hi']
    · simp only [TextMelCollate.callWith]
      rw [map_getD_of_lt ids _ _ i hi']
    · simp only [TextMelCollate.callWith]
      rw [map_getD_of_lt ids _ _ i hi']

theorem collate_descending_consistent_any_sort_witness :
    sampleBatch ≠ [] ∧
    TorchSortAdmissible (batchLens sampleBatch) [1, 2, 0] ∧
    [1, 2, 0].Perm (List.range sampleBatch.length) ∧
    (TextMelCollate.callWith 2 [1, 2, 0] sampleBatch).input_lengths.getD 0 0 =
      (sampleBatch.getD 1 default).text.length :=
  ⟨by decide, by decide,
    (collate_descending_consistent_any_sort 2 sampleBatch (by decide) [1, 2, 0]
      (by decide)).1,
    ((collate_descending_consistent_any_sort 2 sampleBatch (by decide) [1, 2, 0]
      (by decide)).2.2 0 (by decide)).1⟩

